import Mathlib

/-!
Verification of the MarkovDB engine (`libraries/markov_chain.py`).

The Python class `MarkovDB` is embedded shallowly: the mutable object becomes
the structure `MarkovDB`, every method becomes a function from the structure
(and its explicit arguments) to a result, and methods that may raise become
`Except MErr`-valued functions.  Python's `random.SystemRandom` is modelled as
an injected stream of draws `g : Nat → Nat` together with a running draw
counter; `choice(xs)` consumes one draw `k` and selects `xs[k % len(xs)]`,
raising `IndexError` on an empty sequence exactly as Python does.
File-system effects (`os.path.exists`, `os.path.getmtime`) are modelled by an
abstract `FileSys` record of oracles, and the JSON document written by `save`
and read by `load` is modelled by the structure `MarkovDict` (both the plain
and the zlib-compressed encodings of the dictionary are lossless, so the
document itself is the persisted content).
-/

/-- Error kinds corresponding to the Python exception classes that the
translated code can raise.  `valueError`, `typeError`, `keyError` and
`indexError` are the Python builtins; the remaining constructors are the
library's own exception classes. -/
inductive MErr : Type where
  | valueError      -- ValueError
  | typeError       -- TypeError
  | keyError        -- KeyError
  | indexError      -- IndexError
  | invalidState    -- InvalidMarkovStateError
  | invalidSource   -- InvalidMarkovSourceError
  | notGenerated    -- MarkovDBNotGeneratedError
  | outOfSync       -- OutOfSyncError
deriving DecidableEq, Repr

/-- The state of a `MarkovDB` instance: one field per `self._*` attribute of
the Python class (plus the public `name`, `min_state_length`,
`max_state_length`).  A state value is a contiguous py_slice of the source,
hence `List α`. -/
structure MarkovDB (α : Type) where
  name : String
  source : Option (List α)                -- self._source (None before _add_source)
  source_by_state : List (List Nat)       -- self._source_by_state
  state_index : List (List α)             -- self._state_index
  state_delimited : List Bool             -- self._state_delimited
  state_positions : List (List Nat)       -- self._state_positions
  state_occurances : List Nat             -- self._state_occurances
  included_states : Nat                   -- self._included_states
  valid_source : Bool                     -- self._valid_source
  db_generated : Bool                     -- self._db_generated
  saved_loc : Option String               -- self._saved_loc
  delimiter : Option α                    -- self._delimiter
  min_state_length : Nat
  max_state_length : Nat

/-- The dictionary `markov_dict` serialized by `save` and parsed by `load`:
one field per key written at lines 204-214 of the source. -/
structure MarkovDict (α : Type) where
  version : Nat × Nat                     -- __db_version__ = 0.1
  name : String
  source : Option (List α)
  valid_source : Bool
  db_generated : Bool
  source_by_state : List (List Nat)
  state_index : List (List α)
  state_positions : List (List Nat)
  state_occurances : List Nat
  state_delimited : List Bool
  included_states : Nat

def markov_db_version : Nat × Nat := (0, 1)

/-- File extension '.mjson' for the uncompressed encoding. -/
def markov_ext : String := ".mjson"

/-- File extension '.mjson.gz' for the compressed encoding. -/
def m_zip : String := ".mjson.gz"

/-- Character class of the name-validation pattern (`\w`, underscore, space,
dash; `\w` in the source's regex dialect is ASCII alphanumerics plus
underscore). -/
def valid_name_char (c : Char) : Bool :=
  c.isAlphanum || c = '_' || c = ' ' || c = '-'

/-- Translation of the constructor's name check `re.match(..., name)`:
the whole name consists of allowed characters and is nonempty. -/
def valid_name (s : String) : Bool :=
  s.length > 0 && s.toList.all valid_name_char

variable {α : Type} [DecidableEq α]

/-- Translation of `MarkovDB._add_source` (sans the dynamic type check, which
the Lean type of `source` discharges): copy the source, allocate one empty
per-offset bucket per source element, mark the source valid. -/
def _add_source (db : MarkovDB α) (source : List α) : MarkovDB α :=
  { db with
      source := some source,
      source_by_state := List.replicate source.length [],
      valid_source := true }

/-- The record built by `MarkovDB.__init__` once the argument validation has
passed (name pattern, positive length bounds). -/
def freshDB (name : String) (source : Option (List α)) (minL maxL : Nat)
    (d : Option α) : MarkovDB α :=
  let base : MarkovDB α :=
    { name := name, source := none, source_by_state := [], state_index := [],
      state_delimited := [], state_positions := [], state_occurances := [],
      included_states := 0, valid_source := false, db_generated := false,
      saved_loc := none, delimiter := d,
      min_state_length := minL, max_state_length := maxL }
  match source with
  | some src => _add_source base src
  | none => base

/-- Translation of `MarkovDB.__init__` including its validation: invalid name
characters and non-positive length bounds raise `ValueError`. -/
def mkMarkovDB (name : String) (source : Option (List α)) (minL maxL : Nat)
    (d : Option α) : Except MErr (MarkovDB α) :=
  if valid_name name = false then .error .valueError
  else if minL < 1 then .error .valueError
  else if maxL < 1 then .error .valueError
  else .ok (freshDB name source minL maxL d)

/-- Translation of Python's `list.index` (first index holding the value,
`ValueError` — here `none` — when absent). -/
def index_of_state (l : List (List α)) (s : List α) : Option Nat :=
  match l with
  | [] => none
  | x :: xs => if x = s then some 0 else (index_of_state xs s).map (· + 1)

/-- The delimiter flag computed at first registration (lines 495-498): with a
configured delimiter, whether the delimiter occurs in the state; `False`
when no delimiter is configured. -/
def is_delim_state (d : Option α) (s : List α) : Bool :=
  match d with
  | some c => decide (c ∈ s)
  | none => false

/-- Python py_slice `src[ii : ii+jj]`. -/
def py_slice (src : List α) (ii jj : Nat) : List α :=
  (src.drop ii).take jj

/-- Translation of the second half of `_add_state` (lines 500-509), after
`state_pos` has been resolved: record the position if it is new (updating the
occurrence count and the running registration counter), record the state id
at the offset if it is new, and return the cached delimiter flag.  Each
Python list subscript is modelled by `getElem?` with `IndexError` on a miss. -/
def add_state_pos (db : MarkovDB α) (state_pos position : Nat) :
    Except MErr (MarkovDB α × Bool) :=
  match db.state_positions[state_pos]? with
  | none => .error .indexError
  | some plist =>
    let step : Except MErr (MarkovDB α) :=
      if position ∈ plist then .ok db
      else
        match db.state_occurances[state_pos]? with
        | none => .error .indexError
        | some oc =>
          .ok { db with
                  state_positions :=
                    db.state_positions.set state_pos (plist ++ [position]),
                  state_occurances := db.state_occurances.set state_pos (oc + 1),
                  included_states := db.included_states + 1 }
    match step with
    | .error e => .error e
    | .ok db1 =>
      match db1.source_by_state[position]? with
      | none => .error .indexError
      | some slist =>
        let db2 :=
          if state_pos ∈ slist then db1
          else { db1 with
                   source_by_state :=
                     db1.source_by_state.set position (slist ++ [state_pos]) }
        match db2.state_delimited[state_pos]? with
        | none => .error .indexError
        | some b => .ok (db2, b)

/-- Translation of `MarkovDB._add_state`: bounds-check the position against
the source (`KeyError`; `TypeError` if the source is unset, from
`len(None)`), look the state up by value, on a miss check that the four
parallel state attributes have identical lengths (`OutOfSyncError`) and
append a fresh record, then delegate to `add_state_pos`. -/
def _add_state (db : MarkovDB α) (state : List α) (position : Nat) :
    Except MErr (MarkovDB α × Bool) :=
  match db.source with
  | none => .error .typeError
  | some src =>
    if position < src.length then
      match index_of_state db.state_index state with
      | some i => add_state_pos db i position
      | none =>
        if db.state_index.length = db.state_positions.length
            ∧ db.state_positions.length = db.state_occurances.length
            ∧ db.state_occurances.length = db.state_delimited.length then
          add_state_pos
            { db with
                state_index := db.state_index ++ [state],
                state_positions := db.state_positions ++ [[]],
                state_occurances := db.state_occurances ++ [0],
                state_delimited :=
                  db.state_delimited ++ [is_delim_state db.delimiter state] }
            db.state_index.length position
        else .error .outOfSync
    else .error .keyError

/-- The inner loop of `generate` at a fixed offset `ii`: lengths `jj` counting
up, `fuel` iterations remaining (`max_state_length + 1 - min_state_length`
at entry); stop at the source end (`ii + jj > len`), register the py_slice,
stop after a delimited registration. -/
def gen_inner (db : MarkovDB α) (src : List α) (ii jj fuel : Nat) :
    Except MErr (MarkovDB α) :=
  match fuel with
  | 0 => .ok db
  | fuel + 1 =>
    if ii + jj > src.length then .ok db
    else
      match _add_state db (py_slice src ii jj) ii with
      | .error e => .error e
      | .ok (db', delimiter_found) =>
        if delimiter_found then .ok db'
        else gen_inner db' src ii (jj + 1) fuel

/-- The outer loop of `generate`: offsets `ii` counting up, `fuel` iterations
remaining (`len(source)` at entry). -/
def gen_outer (db : MarkovDB α) (src : List α) (ii fuel : Nat) :
    Except MErr (MarkovDB α) :=
  match fuel with
  | 0 => .ok db
  | fuel + 1 =>
    match gen_inner db src ii db.min_state_length
        (db.max_state_length + 1 - db.min_state_length) with
    | .error e => .error e
    | .ok db' => gen_outer db' src (ii + 1) fuel

/-- Translation of `MarkovDB.generate` (the progress-bar and timing output is
console-only and carries no state): require a valid source, walk every
offset, then set `db_generated`. -/
def generate (db : MarkovDB α) : Except MErr (MarkovDB α) :=
  if db.valid_source = false then .error .invalidSource
  else
    match db.source with
    | none => .error .typeError
    | some src =>
      match gen_outer db src 0 src.length with
      | .error e => .error e
      | .ok db' => .ok { db' with db_generated := true }

/-- Model of `self._rng.choice(xs)` for the injected draw stream `g` at draw
counter `t`: selects `xs[g t % len xs]` and advances the counter;
`IndexError` on an empty sequence, as in Python. -/
def rchoice {β : Type} (xs : List β) (g : Nat → Nat) (t : Nat) :
    Except MErr (β × Nat) :=
  if h : 0 < xs.length then
    .ok (xs.get ⟨g t % xs.length, Nat.mod_lt _ h⟩, t + 1)
  else .error .indexError

/-- The weighted-seed draw of `get_chain` (lines 351-352):
`seed_index = choice(choice(self._source_by_state))` followed by
`seed = self._state_index[seed_index]`. -/
def weighted_seed_state (db : MarkovDB α) (g : Nat → Nat) (t : Nat) :
    Except MErr (List α × Nat) :=
  match rchoice db.source_by_state g t with
  | .error e => .error e
  | .ok (lst, t1) =>
    match rchoice lst g t1 with
    | .error e => .error e
    | .ok (seed_index, t2) =>
      match db.state_index[seed_index]? with
      | none => .error .indexError
      | some s => .ok (s, t2)

/-- Seed resolution of `get_chain` (lines 345-354): an explicit seed is used
as given; otherwise the weighted or the flat draw. -/
def resolve_seed (db : MarkovDB α) (seed? : Option (List α))
    (random_seed_weighted : Bool) (g : Nat → Nat) (t : Nat) :
    Except MErr (List α × Nat) :=
  match seed? with
  | some s => .ok (s, t)
  | none =>
    if random_seed_weighted then weighted_seed_state db g t
    else rchoice db.state_index g t

/-- Translation of `MarkovDB._get_next_state`.  Returns the new database
first (the method never assigns to `self`, which the threading makes
checkable).  `ok (none, t)` models Python's bare `return None`; note the
guard `source_pos > len(self._source_by_state)` uses a strict `>`, so
`source_pos = len` falls through to the subscript
`self._source_by_state[source_pos]` and raises `IndexError`. -/
def _get_next_state (db : MarkovDB α) (state : List α) (g : Nat → Nat)
    (t : Nat) : MarkovDB α × Except MErr (Option (List α × Nat) × Nat) :=
  match index_of_state db.state_index state with
  | none => (db, .error .invalidState)
  | some state_pos =>
    match db.state_positions[state_pos]? with
    | none => (db, .error .indexError)
    | some plist =>
      match rchoice plist g t with
      | .error e => (db, .error e)
      | .ok (pos, t1) =>
        match db.state_index[state_pos]? with
        | none => (db, .error .indexError)
        | some sval =>
          let source_pos := pos + sval.length
          if source_pos > db.source_by_state.length then (db, .ok (none, t1))
          else
            match db.source_by_state[source_pos]? with
            | none => (db, .error .indexError)
            | some clist =>
              if clist.length < 1 then (db, .ok (none, t1))
              else
                match rchoice clist g t1 with
                | .error e => (db, .error e)
                | .ok (sidx, t2) =>
                  match db.state_index[sidx]? with
                  | none => (db, .error .indexError)
                  | some nstate => (db, .ok (some (nstate, sidx), t2))

/-- The walk loop of `get_chain` (lines 363-371), `fuel = num_states - 1`
iterations.  Python's `c_state, index = self._get_next_state(c_state)`
unpacks the returned value into a pair, so the bare `None` return raises
`TypeError` here; a delimited new state stops the loop before the append. -/
def chain_loop (db : MarkovDB α) (c_state : List α) (chain : List (List α))
    (g : Nat → Nat) (t fuel : Nat) :
    MarkovDB α × Except MErr (List (List α)) :=
  match fuel with
  | 0 => (db, .ok chain)
  | fuel + 1 =>
    match _get_next_state db c_state g t with
    | (db1, .error e) => (db1, .error e)
    | (db1, .ok (none, _)) => (db1, .error .typeError)
    | (db1, .ok (some (nstate, idx), t1)) =>
      match db1.state_delimited[idx]? with
      | none => (db1, .error .indexError)
      | some b =>
        if b then (db1, .ok chain)
        else chain_loop db1 nstate (chain ++ [nstate]) g t1 fuel

/-- Translation of `MarkovDB.get_chain`: validation (`ValueError` for
`num_states < 1`, `InvalidMarkovStateError` — not `InvalidMarkovSourceError`
— for a missing source, `MarkovDBNotGeneratedError` for an unbuilt index),
seed resolution, seed membership validation, then the walk.  The returned
database is threaded through to expose the absence of mutation. -/
def get_chain (db : MarkovDB α) (num_states : Nat) (seed? : Option (List α))
    (random_seed_weighted : Bool) (g : Nat → Nat) :
    MarkovDB α × Except MErr (List (List α)) :=
  if num_states < 1 then (db, .error .valueError)
  else if db.valid_source = false then (db, .error .invalidState)
  else if db.db_generated = false then (db, .error .notGenerated)
  else
    match resolve_seed db seed? random_seed_weighted g 0 with
    | .error e => (db, .error e)
    | .ok (seed, t) =>
      if decide (seed ∈ db.state_index) = false then (db, .error .invalidState)
      else chain_loop db seed [seed] g t (num_states - 1)

/-- Translation of `MarkovDB.get_chain_as_string`: run `get_chain`, then
concatenate the states in order (the per-state string-type check always
passes for a source of symbols, which the Lean type guarantees). -/
def get_chain_as_string (db : MarkovDB α) (num_states : Nat)
    (seed? : Option (List α)) (random_seed_weighted : Bool) (g : Nat → Nat) :
    MarkovDB α × Except MErr (List α) :=
  match get_chain db num_states seed? random_seed_weighted g with
  | (db1, .error e) => (db1, .error e)
  | (db1, .ok chain) => (db1, .ok (chain.foldl (· ++ ·) []))

/-- The serialization half of `MarkovDB.save` (lines 185-214): the dictionary
written to disk.  Both the `compress=True` (zlib over the JSON text) and the
`compress=False` (plain JSON) encodings are lossless encodings of this same
dictionary, so the flag does not affect the persisted content. -/
def save (db : MarkovDB α) (compress : Bool) : Except MErr (MarkovDict α) :=
  if db.valid_source = false then .error .invalidSource
  else
    .ok { version := markov_db_version,
          name := db.name,
          source := db.source,
          valid_source := db.valid_source,
          db_generated := db.db_generated,
          source_by_state := db.source_by_state,
          state_index := db.state_index,
          state_positions := db.state_positions,
          state_occurances := db.state_occurances,
          state_delimited := db.state_delimited,
          included_states := db.included_states }

/-- The in-memory half of `MarkovDB.load` (lines 283-301), applied to a
parsed document: restore `name` and `valid_source`, re-run `_add_source` on
the stored source, restore `db_generated`, and when it is set restore
`source_by_state`, `state_index`, `state_occurances`, `included_states` and
`state_delimited` — the `state_positions` key of the document is never read
— then remember the path. -/
def load_dict (db : MarkovDB α) (d : MarkovDict α) (file_path : String) :
    MarkovDB α :=
  let db1 := { db with name := d.name, valid_source := d.valid_source }
  let db2 :=
    if d.valid_source then _add_source db1 (d.source.getD []) else db1
  let db3 := { db2 with db_generated := d.db_generated }
  let db4 :=
    if d.db_generated then
      { db3 with
          source_by_state := d.source_by_state,
          state_index := d.state_index,
          state_occurances := d.state_occurances,
          included_states := d.included_states,
          state_delimited := d.state_delimited }
    else db3
  { db4 with saved_loc := some file_path }

/-- Oracles for the file-system queries made by `load`: existence and
modification time of a path. -/
structure FileSys where
  fexists : String → Bool
  mtime : String → Int

def path_join (dir fname : String) : String := dir ++ "/" ++ fname

/-- The path-resolution prefix of `MarkovDB.load` (lines 244-268) with the
settings collaborator abstracted to `default_dir`.  With `file_path` omitted
the code first evaluates `os.path.exists(self._saved_loc)`: when the
instance has never been saved `self._saved_loc` is `None` and `os.stat`
raises `TypeError`.  Otherwise the prior path is used if it still exists;
else the default-directory candidates for both extensions are compared,
`getmtime` breaking the tie when both exist (uncompressed wins a `>=`). -/
def resolve_load_path (fs : FileSys) (default_dir : String) (db : MarkovDB α)
    (file_path? : Option String) : Except MErr String :=
  match file_path? with
  | some p => .ok p
  | none =>
    match db.saved_loc with
    | none => .error .typeError
    | some sl =>
      if fs.fexists sl then .ok sl
      else
        let base := path_join default_dir db.name
        let fext :=
          if fs.fexists (base ++ markov_ext) && fs.fexists (base ++ m_zip) then
            if fs.mtime (base ++ markov_ext) ≥ fs.mtime (base ++ m_zip) then
              markov_ext
            else m_zip
          else if fs.fexists (base ++ markov_ext) then markov_ext
          else m_zip
        .ok (path_join default_dir (db.name ++ fext))

/-! ## Derived notions used to state the claims -/

/-- Extract the database from a successful `Except`, with a fallback for the
(unreached) error case, so that concrete built models can be named. -/
def db_of {α : Type} (e : Except MErr (MarkovDB α)) (fb : MarkovDB α) :
    MarkovDB α :=
  match e with
  | .ok d => d
  | .error _ => fb

/-- Extract the document from a successful `save`, with a fallback. -/
def dict_of {α : Type} (e : Except MErr (MarkovDict α)) (fb : MarkovDict α) :
    MarkovDict α :=
  match e with
  | .ok d => d
  | .error _ => fb

/-- The pair `(state value, offset)` is registered in the index: some state
id carries the value and lists the offset among its positions. -/
def registered (db : MarkovDB α) (s : List α) (p : Nat) : Prop :=
  ∃ (i : Nat) (plist : List Nat), db.state_index[i]? = some s ∧
    db.state_positions[i]? = some plist ∧ p ∈ plist

/-- Invariant I1 of the spec: every registered state id has
`occurrence_count = |positions|` (stated over the parallel arrays: the
occurrence entry of every id equals the length of its positions entry, both
present). -/
def occ_matches (db : MarkovDB α) : Prop :=
  ∀ i, i < db.state_index.length →
    db.state_occurances[i]? = (db.state_positions[i]?).map List.length

/-- The number of distinct `(state, offset)` pairs recorded in the index. -/
def pair_count (db : MarkovDB α) : Nat :=
  (db.state_positions.map List.length).sum

/-- Every positions list is duplicate-free (so `pair_count` counts distinct
pairs). -/
def positions_nodup (db : MarkovDB α) : Prop :=
  ∀ l ∈ db.state_positions, l.Nodup

/-- Claim-side description (C7) of the lengths the builder tries at offset
`ii`: consecutive lengths from `jj` upward with `fuel` candidates remaining,
stopping (exclusively) when `ii + jj` exceeds the source length, and
stopping (inclusively) right after a delimited state. -/
def claimLengths (src : List α) (d : Option α) (ii jj fuel : Nat) : List Nat :=
  match fuel with
  | 0 => []
  | fuel + 1 =>
    if ii + jj > src.length then []
    else if is_delim_state d (py_slice src ii jj) then [jj]
    else jj :: claimLengths src d ii (jj + 1) fuel

/-- Claim-side description (C7) of all `(state, offset)` pairs the builder
registers, offsets `ii` counting up with `fuel` offsets remaining. -/
def claim_regs_from (src : List α) (d : Option α) (minL maxL ii fuel : Nat) :
    List (List α × Nat) :=
  match fuel with
  | 0 => []
  | fuel + 1 =>
    ((claimLengths src d ii minL (maxL + 1 - minL)).map
        (fun jj => (py_slice src ii jj, ii)))
      ++ claim_regs_from src d minL maxL (ii + 1) fuel

/-- Claim-side description (C7): the registered pairs over every start
offset in `[0, len src)`. -/
def claimRegs (src : List α) (d : Option α) (minL maxL : Nat) :
    List (List α × Nat) :=
  claim_regs_from src d minL maxL 0 src.length

/-! ## Concrete models used by the claims' counterexamples and witnesses -/

/-- Draw stream that always returns 0. -/
def g0 : Nat → Nat := fun _ => 0

/-- Draw stream that always returns 2. -/
def g2 : Nat → Nat := fun _ => 2

def dummyDict : MarkovDict Char :=
  { version := (0, 0), name := "", source := none, valid_source := false,
    db_generated := false, source_by_state := [], state_index := [],
    state_positions := [], state_occurances := [], state_delimited := [],
    included_states := 0 }

/-- Model of name "m" over source "ABAB", `min = max = 1`, no delimiter. -/
def freshABAB : MarkovDB Char := freshDB "m" (some ['A', 'B', 'A', 'B']) 1 1 none

/-- The ABAB model after `generate`. -/
def dbABAB : MarkovDB Char := db_of (generate freshABAB) freshABAB

/-- Model over the one-symbol source "a", `min = max = 1`, no delimiter. -/
def freshA : MarkovDB Char := freshDB "m" (some ['a']) 1 1 none

/-- The "a" model after `generate`. -/
def dbA : MarkovDB Char := db_of (generate freshA) freshA

/-- The document `save` produces for the built "a" model. -/
def dictA : MarkovDict Char := dict_of (save dbA true) dummyDict

/-- A fresh instance of the same name after loading the saved "a" model. -/
def dbA_loaded : MarkovDB Char := load_dict (freshDB "m" none 1 1 none) dictA "p"

/-- Model over "a.b" with delimiter '.', `min = max = 1`. -/
def freshADB : MarkovDB Char := freshDB "m" (some ['a', '.', 'b']) 1 1 (some '.')

/-- The "a.b" model after `generate`; its state index is
`[a, ., b]` with only the '.' state delimited. -/
def dbADB : MarkovDB Char := db_of (generate freshADB) freshADB

/-- Model over "ab", `min = max = 1`, no delimiter. -/
def freshAB : MarkovDB Char := freshDB "m" (some ['a', 'b']) 1 1 none

/-- The "ab" model after `generate`. -/
def dbAB : MarkovDB Char := db_of (generate freshAB) freshAB

/-- Model over "abc" with `min = max = 2`, no delimiter: offset 2 has no
candidate states (`2 + 2 > 3`), so its `source_by_state` bucket is empty. -/
def freshABC2 : MarkovDB Char := freshDB "m" (some ['a', 'b', 'c']) 2 2 none

/-- The "abc" `min = max = 2` model after `generate`. -/
def dbABC2 : MarkovDB Char := db_of (generate freshABC2) freshABC2

/-- An instance that never had a source assigned. -/
def dbNS : MarkovDB Char := freshDB "x" none 1 1 none

/-- The fields of the model that registration and generation never touch. -/
def same_config (db db' : MarkovDB α) : Prop :=
  db'.delimiter = db.delimiter ∧ db'.min_state_length = db.min_state_length ∧
  db'.max_state_length = db.max_state_length

/-- Structural invariant over an assigned source: the source is set, the
per-offset table covers it, the four parallel state arrays agree in length,
and every cached delimiter flag is the delimiter check of its state value. -/
def wf (db : MarkovDB α) (src : List α) : Prop :=
  db.source = some src ∧
  db.source_by_state.length = src.length ∧
  db.state_index.length = db.state_positions.length ∧
  db.state_positions.length = db.state_occurances.length ∧
  db.state_occurances.length = db.state_delimited.length ∧
  ∀ (i : Nat) (s : List α), db.state_index[i]? = some s →
    db.state_delimited[i]? = some (is_delim_state db.delimiter s)

instance (db : MarkovDB Char) : Decidable (occ_matches db) :=
  Nat.decidableBallLT _ _

/-! ## Helper lemmas -/

theorem index_of_state_some {l : List (List α)} {s : List α} :
    ∀ {i : Nat}, index_of_state l s = some i → l[i]? = some s := by
  induction l with
  | nil => intro i h; simp [index_of_state] at h
  | cons x xs ih =>
    intro i h
    rw [index_of_state] at h
    by_cases hx : x = s
    · rw [if_pos hx] at h
      cases h
      simp [hx]
    · rw [if_neg hx] at h
      cases hi : index_of_state xs s with
      | none => rw [hi] at h; simp at h
      | some j =>
        rw [hi] at h
        simp at h
        subst h
        simpa using ih hi

theorem index_of_state_none {l : List (List α)} {s : List α}
    (h : index_of_state l s = none) : ∀ i : Nat, l[i]? ≠ some s := by
  induction l with
  | nil => intro i; simp
  | cons x xs ih =>
    intro i
    rw [index_of_state] at h
    by_cases hx : x = s
    · rw [if_pos hx] at h; cases h
    · rw [if_neg hx] at h
      cases hi : index_of_state xs s with
      | none =>
        cases i with
        | zero => simpa using fun hh => hx hh
        | succ j => simpa using ih hi j
      | some j => rw [hi] at h; simp at h

theorem set_append_length (l : List β) (x y : β) :
    (l ++ [x]).set l.length y = l ++ [y] := by
  induction l with
  | nil => rfl
  | cons a as ih => simpa using ih

/-- Explicit description of what `add_state_pos` does once its four
subscripts are known to resolve. -/
theorem add_state_pos_eq (db : MarkovDB α) (i p : Nat) (plist : List Nat)
    (oc : Nat) (slist : List Nat) (b : Bool)
    (hP : db.state_positions[i]? = some plist)
    (hO : db.state_occurances[i]? = some oc)
    (hS : db.source_by_state[p]? = some slist)
    (hD : db.state_delimited[i]? = some b) :
    add_state_pos db i p =
      .ok (let db1 :=
             if p ∈ plist then db
             else { db with
                      state_positions := db.state_positions.set i (plist ++ [p]),
                      state_occurances := db.state_occurances.set i (oc + 1),
                      included_states := db.included_states + 1 }
           if i ∈ slist then db1
           else { db1 with
                    source_by_state := db1.source_by_state.set p (slist ++ [i]) },
           b) := by
  rw [add_state_pos, hP]
  try dsimp only
  by_cases hmem : p ∈ plist
  · simp only [if_pos hmem]
    try dsimp only
    rw [hS]
    try dsimp only
    by_cases hsb : i ∈ slist
    · simp only [if_pos hsb]
      try dsimp only
      rw [hD]
    · simp only [if_neg hsb]
      try dsimp only
      rw [hD]
  · simp only [if_neg hmem]
    try dsimp only
    rw [hO]
    try dsimp only
    rw [hS]
    try dsimp only
    by_cases hsb : i ∈ slist
    · simp only [if_pos hsb]
      try dsimp only
      rw [hD]
    · simp only [if_neg hsb]
      try dsimp only
      rw [hD]

theorem same_config_refl (db : MarkovDB α) : same_config db db :=
  ⟨rfl, rfl, rfl⟩

theorem same_config_trans {db1 db2 db3 : MarkovDB α}
    (h1 : same_config db1 db2) (h2 : same_config db2 db3) :
    same_config db1 db3 :=
  ⟨h2.1.trans h1.1, h2.2.1.trans h1.2.1, h2.2.2.trans h1.2.2⟩

theorem add_state_spec (db : MarkovDB α) (src s : List α) (p : Nat)
    (hwf : wf db src) (hp : p < src.length) :
    ∃ db', _add_state db s p = .ok (db', is_delim_state db.delimiter s) ∧
      wf db' src ∧ same_config db db' ∧
      ∀ s' p', registered db' s' p' ↔ registered db s' p' ∨ (s' = s ∧ p' = p) := by
  obtain ⟨hsrc, hsbs, h1, h2, h3, hflags⟩ := hwf
  rw [_add_state, hsrc]
  try dsimp only
  rw [if_pos hp]
  cases hio : index_of_state db.state_index s with
  | some i =>
    try dsimp only
    have hIi : db.state_index[i]? = some s := index_of_state_some hio
    have hilt : i < db.state_index.length := by
      rcases List.getElem?_eq_some.mp hIi with ⟨h, _⟩; exact h
    obtain ⟨plist, hPi⟩ : ∃ pl, db.state_positions[i]? = some pl :=
      ⟨_, List.getElem?_eq_getElem (by omega)⟩
    obtain ⟨oc, hOi⟩ : ∃ oc, db.state_occurances[i]? = some oc :=
      ⟨_, List.getElem?_eq_getElem (by omega)⟩
    obtain ⟨slist, hSp⟩ : ∃ sl, db.source_by_state[p]? = some sl :=
      ⟨_, List.getElem?_eq_getElem (by omega)⟩
    have hDi : db.state_delimited[i]? = some (is_delim_state db.delimiter s) :=
      hflags i s hIi
    rw [add_state_pos_eq db i p plist oc slist _ hPi hOi hSp hDi]
    try dsimp only
    by_cases hmem : p ∈ plist
    · simp only [if_pos hmem]
      by_cases hsb : i ∈ slist
      · simp only [if_pos hsb]
        refine ⟨db, rfl, ⟨hsrc, hsbs, h1, h2, h3, hflags⟩, same_config_refl db, ?_⟩
        intro s' p'
        constructor
        · exact fun h => Or.inl h
        · rintro (h | ⟨rfl, rfl⟩)
          · exact h
          · exact ⟨i, plist, hIi, hPi, hmem⟩
      · simp only [if_neg hsb]
        refine ⟨_, rfl, ⟨hsrc, by simpa using hsbs, h1, h2, h3, hflags⟩,
          ⟨rfl, rfl, rfl⟩, ?_⟩
        intro s' p'
        constructor
        · exact fun h => Or.inl h
        · rintro (h | ⟨rfl, rfl⟩)
          · exact h
          · exact ⟨i, plist, hIi, hPi, hmem⟩
    · simp only [if_neg hmem]
      have hiff : ∀ s' p',
          registered { db with
              state_positions := db.state_positions.set i (plist ++ [p]),
              state_occurances := db.state_occurances.set i (oc + 1),
              included_states := db.included_states + 1 } s' p' ↔
            registered db s' p' ∨ (s' = s ∧ p' = p) := by
        intro s' p'
        constructor
        · rintro ⟨j, pl, hI, hP, hm⟩
          by_cases hji : j = i
          · subst hji
            rw [List.getElem?_set, if_pos rfl, if_pos (by omega)] at hP
            cases hP
            rw [hIi] at hI
            cases hI
            rcases List.mem_append.mp hm with hm | hm
            · exact Or.inl ⟨j, plist, hIi, hPi, hm⟩
            · exact Or.inr ⟨rfl, by simpa using hm⟩
          · rw [List.getElem?_set, if_neg (fun hh => hji hh.symm)] at hP
            exact Or.inl ⟨j, pl, hI, hP, hm⟩
        · rintro (⟨j, pl, hI, hP, hm⟩ | ⟨hs2, hp2⟩)
          · by_cases hji : j = i
            · subst hji
              rw [hPi] at hP
              cases hP
              exact ⟨j, plist ++ [p], hI,
                by rw [List.getElem?_set, if_pos rfl, if_pos (by omega)],
                List.mem_append.mpr (Or.inl hm)⟩
            · exact ⟨j, pl, hI,
                by rw [List.getElem?_set, if_neg (fun hh => hji hh.symm)]; exact hP, hm⟩
          · rw [hs2, hp2]
            exact ⟨i, plist ++ [p], hIi,
              by rw [List.getElem?_set, if_pos rfl, if_pos (by omega)],
              List.mem_append.mpr (Or.inr (by simp))⟩
      have hwf' : ∀ sbs' : List (List Nat), sbs'.length = src.length →
          wf { db with
              state_positions := db.state_positions.set i (plist ++ [p]),
              state_occurances := db.state_occurances.set i (oc + 1),
              included_states := db.included_states + 1,
              source_by_state := sbs' } src := by
        intro sbs' hlen
        exact ⟨hsrc, hlen, by simpa [List.length_set] using h1,
          by simp [List.length_set]; omega, by simpa [List.length_set] using h3,
          fun j s' hj => hflags j s' hj⟩
      by_cases hsb : i ∈ slist
      · simp only [if_pos hsb]
        exact ⟨_, rfl, hwf' _ hsbs, ⟨rfl, rfl, rfl⟩, hiff⟩
      · simp only [if_neg hsb]
        exact ⟨_, rfl, hwf' _ (by simpa using hsbs), ⟨rfl, rfl, rfl⟩, hiff⟩
  | none =>
    have hnone := index_of_state_none hio
    have hsync : db.state_index.length = db.state_positions.length
        ∧ db.state_positions.length = db.state_occurances.length
        ∧ db.state_occurances.length = db.state_delimited.length :=
      ⟨h1, h2, h3⟩
    try dsimp only
    rw [if_pos hsync]
    obtain ⟨slist, hSp⟩ : ∃ sl, db.source_by_state[p]? = some sl :=
      ⟨_, List.getElem?_eq_getElem (by omega)⟩
    have hPi : ({ db with
        source := some src,
        state_index := db.state_index ++ [s],
        state_positions := db.state_positions ++ [[]],
        state_occurances := db.state_occurances ++ [0],
        state_delimited := db.state_delimited ++ [is_delim_state db.delimiter s] } :
        MarkovDB α).state_positions[db.state_index.length]? = some ([] : List Nat) := by
      show (db.state_positions ++ [[]])[db.state_index.length]? = some ([] : List Nat)
      rw [h1]; exact List.getElem?_concat_length _ _
    have hOi : ({ db with
        source := some src,
        state_index := db.state_index ++ [s],
        state_positions := db.state_positions ++ [[]],
        state_occurances := db.state_occurances ++ [0],
        state_delimited := db.state_delimited ++ [is_delim_state db.delimiter s] } :
        MarkovDB α).state_occurances[db.state_index.length]? = some 0 := by
      show (db.state_occurances ++ [0])[db.state_index.length]? = some 0
      rw [h1, h2]; exact List.getElem?_concat_length _ _
    have hSp2 : ({ db with
        source := some src,
        state_index := db.state_index ++ [s],
        state_positions := db.state_positions ++ [[]],
        state_occurances := db.state_occurances ++ [0],
        state_delimited := db.state_delimited ++ [is_delim_state db.delimiter s] } :
        MarkovDB α).source_by_state[p]? = some slist := hSp
    have hDi : ({ db with
        source := some src,
        state_index := db.state_index ++ [s],
        state_positions := db.state_positions ++ [[]],
        state_occurances := db.state_occurances ++ [0],
        state_delimited := db.state_delimited ++ [is_delim_state db.delimiter s] } :
        MarkovDB α).state_delimited[db.state_index.length]? =
        some (is_delim_state db.delimiter s) := by
      show (db.state_delimited ++ [is_delim_state db.delimiter s])[db.state_index.length]? =
        some (is_delim_state db.delimiter s)
      rw [h1, h2, h3]; exact List.getElem?_concat_length _ _
    rw [add_state_pos_eq _ db.state_index.length p [] 0 slist _ hPi hOi hSp2 hDi]
    try dsimp only
    rw [if_neg (List.not_mem_nil p)]
    try dsimp only
    simp only [List.nil_append]
    have hset : (db.state_positions ++ [[]]).set db.state_index.length [p] =
        db.state_positions ++ [[p]] := by
      rw [h1]; exact set_append_length _ _ _
    have hsetO : (db.state_occurances ++ [0]).set db.state_index.length 1 =
        db.state_occurances ++ [1] := by
      rw [h1, h2]; exact set_append_length _ _ _
    rw [hset, hsetO]
    have hiff : ∀ s' p',
        registered { db with
            state_index := db.state_index ++ [s],
            state_positions := db.state_positions ++ [[p]],
            state_occurances := db.state_occurances ++ [1],
            state_delimited := db.state_delimited ++ [is_delim_state db.delimiter s],
            included_states := db.included_states + 1 } s' p' ↔
          registered db s' p' ∨ (s' = s ∧ p' = p) := by
      intro s' p'
      constructor
      · rintro ⟨j, pl, hI, hP, hm⟩
        rcases Nat.lt_or_ge j db.state_index.length with hj | hj
        · rw [List.getElem?_append, if_pos hj] at hI
          rw [List.getElem?_append, if_pos (by omega)] at hP
          exact Or.inl ⟨j, pl, hI, hP, hm⟩
        · rcases Nat.eq_or_lt_of_le hj with hj | hj
          · rw [← hj] at hI hP
            rw [List.getElem?_concat_length] at hI
            rw [show db.state_index.length = db.state_positions.length from h1,
              List.getElem?_concat_length] at hP
            cases hI
            cases hP
            exact Or.inr ⟨rfl, by simpa using hm⟩
          · rw [List.getElem?_append, if_neg (by omega)] at hI
            have : j - db.state_index.length ≥ 1 := by omega
            rcases Nat.exists_eq_add_of_le this with ⟨k, hk⟩
            simp [List.getElem?_eq_none, hk] at hI
      · rintro (⟨j, pl, hI, hP, hm⟩ | ⟨hs2, hp2⟩)
        · have hj : j < db.state_index.length := by
            rcases List.getElem?_eq_some.mp hI with ⟨h, _⟩; exact h
          exact ⟨j, pl, by rw [List.getElem?_append, if_pos hj]; exact hI,
            by rw [List.getElem?_append, if_pos (by omega)]; exact hP, hm⟩
        · rw [hs2, hp2]
          exact ⟨db.state_index.length, [p],
            List.getElem?_concat_length _ _,
            by rw [show db.state_index.length = db.state_positions.length from h1,
              List.getElem?_concat_length], by simp⟩
    have hflags' : ∀ (j : Nat) (s' : List α), (db.state_index ++ [s])[j]? = some s' →
        (db.state_delimited ++ [is_delim_state db.delimiter s])[j]? =
          some (is_delim_state db.delimiter s') := by
      intro j s' hj
      rcases Nat.lt_or_ge j db.state_index.length with hlt | hge
      · rw [List.getElem?_append, if_pos hlt] at hj
        rw [List.getElem?_append, if_pos (by omega)]
        exact hflags j s' hj
      · rcases Nat.eq_or_lt_of_le hge with heq | hgt
        · rw [← heq, List.getElem?_concat_length] at hj
          cases hj
          rw [← heq,
            show db.state_index.length = db.state_delimited.length from by omega,
            List.getElem?_concat_length]
        · rw [List.getElem?_append, if_neg (by omega)] at hj
          have : j - db.state_index.length ≥ 1 := by omega
          rcases Nat.exists_eq_add_of_le this with ⟨k, hk⟩
          simp [List.getElem?_eq_none, hk] at hj
    by_cases hsb : db.state_index.length ∈ slist
    · simp only [if_pos hsb]
      refine ⟨_, rfl, ?_, ⟨rfl, rfl, rfl⟩, hiff⟩
      exact ⟨rfl, hsbs, by simp; omega, by simp; omega, by simp; omega, hflags'⟩
    · simp only [if_neg hsb]
      refine ⟨_, rfl, ?_, ⟨rfl, rfl, rfl⟩, hiff⟩
      exact ⟨rfl, by simpa using hsbs, by simp; omega, by simp; omega,
        by simp; omega, hflags'⟩

theorem gen_inner_spec (src : List α) (ii : Nat) (hii : ii < src.length) :
    ∀ fuel jj (db : MarkovDB α), wf db src →
    ∃ db', gen_inner db src ii jj fuel = .ok db' ∧ wf db' src ∧
      same_config db db' ∧
      ∀ s p, registered db' s p ↔ registered db s p ∨
        (s, p) ∈ (claimLengths src db.delimiter ii jj fuel).map
          (fun j => (py_slice src ii j, ii)) := by
  intro fuel
  induction fuel with
  | zero =>
    intro jj db hwf
    exact ⟨db, rfl, hwf, same_config_refl db, by simp [claimLengths]⟩
  | succ n ih =>
    intro jj db hwf
    by_cases hend : ii + jj > src.length
    · refine ⟨db, ?_, hwf, same_config_refl db, ?_⟩
      · rw [gen_inner, if_pos hend]
      · intro s p
        rw [claimLengths, if_pos hend]
        simp
    · obtain ⟨db1, hstep, hwf1, hcfg1, hreg1⟩ :=
        add_state_spec db src (py_slice src ii jj) ii hwf hii
      cases hdel : is_delim_state db.delimiter (py_slice src ii jj) with
      | true =>
        refine ⟨db1, ?_, hwf1, hcfg1, ?_⟩
        · rw [gen_inner, if_neg hend, hstep, hdel]
          try dsimp only
          rw [if_pos rfl]
        · intro s p
          rw [claimLengths, if_neg hend, hdel]
          rw [hreg1 s p]
          simp
      | false =>
        obtain ⟨db2, hrec, hwf2, hcfg2, hreg2⟩ := ih (jj + 1) db1 hwf1
        refine ⟨db2, ?_, hwf2, same_config_trans hcfg1 hcfg2, ?_⟩
        · rw [gen_inner, if_neg hend, hstep, hdel]
          try dsimp only
          rw [if_neg (by simp)]
          exact hrec
        · intro s p
          rw [hreg2 s p, hreg1 s p]
          rw [claimLengths, if_neg hend, hdel]
          rw [hcfg1.1]
          simp [or_assoc]

theorem gen_outer_spec (src : List α) :
    ∀ fuel ii (db : MarkovDB α), ii + fuel ≤ src.length → wf db src →
    ∃ db', gen_outer db src ii fuel = .ok db' ∧ wf db' src ∧
      same_config db db' ∧
      ∀ s p, registered db' s p ↔ registered db s p ∨
        (s, p) ∈ claim_regs_from src db.delimiter db.min_state_length
          db.max_state_length ii fuel := by
  intro fuel
  induction fuel with
  | zero =>
    intro ii db hle hwf
    exact ⟨db, rfl, hwf, same_config_refl db, by simp [claim_regs_from]⟩
  | succ n ih =>
    intro ii db hle hwf
    have hii : ii < src.length := by omega
    obtain ⟨db1, hinner, hwf1, hcfg1, hreg1⟩ :=
      gen_inner_spec src ii hii (db.max_state_length + 1 - db.min_state_length)
        db.min_state_length db hwf
    obtain ⟨db2, houter, hwf2, hcfg2, hreg2⟩ := ih (ii + 1) db1 (by omega) hwf1
    refine ⟨db2, ?_, hwf2, same_config_trans hcfg1 hcfg2, ?_⟩
    · rw [gen_outer, hinner]
      try dsimp only
      exact houter
    · intro s p
      rw [hreg2 s p, hreg1 s p]
      rw [claim_regs_from]
      rw [hcfg1.1, hcfg1.2.1, hcfg1.2.2]
      simp [or_assoc]

theorem generate_spec (name : String) (src : List α) (minL maxL : Nat)
    (d : Option α) :
    ∃ db', generate (freshDB name (some src) minL maxL d) = .ok db' ∧
      db'.db_generated = true ∧
      ∀ s p, registered db' s p ↔ (s, p) ∈ claimRegs src d minL maxL := by
  have hwf0 : wf (freshDB name (some src) minL maxL d) src := by
    refine ⟨rfl, by simp [freshDB, _add_source], rfl, rfl, rfl, ?_⟩
    intro i s hi
    simp [freshDB, _add_source] at hi
  obtain ⟨db1, houter, hwf1, hcfg1, hreg1⟩ :=
    gen_outer_spec src src.length 0 (freshDB name (some src) minL maxL d)
      (by omega) hwf0
  refine ⟨{ db1 with db_generated := true }, ?_, rfl, ?_⟩
  · rw [generate]
    rw [if_neg (by simp [freshDB, _add_source])]
    try dsimp only
    rw [show (freshDB name (some src) minL maxL d).source = some src from rfl]
    try dsimp only
    rw [houter]
  · intro s p
    rw [show registered { db1 with db_generated := true } s p ↔ registered db1 s p
      from Iff.rfl]
    rw [hreg1 s p]
    constructor
    · rintro (⟨i, pl, hI, hP, hm⟩ | h)
      · simp [freshDB, _add_source] at hI
      · exact h
    · intro h
      exact Or.inr h

theorem sum_map_set_length (l : List (List Nat)) :
    ∀ (i : Nat) (v pl : List Nat), l[i]? = some pl →
    ((l.set i v).map List.length).sum + pl.length
      = (l.map List.length).sum + v.length := by
  induction l with
  | nil => intro i v pl h; simp at h
  | cons x xs ih =>
    intro i v pl h
    cases i with
    | zero =>
      rw [List.getElem?_cons_zero] at h
      cases h
      simp [List.set]
      omega
    | succ j =>
      rw [List.getElem?_cons_succ] at h
      have hih := ih j v pl h
      simp only [List.set, List.map_cons, List.sum_cons]
      omega

theorem add_state_pos_inv (db db1 : MarkovDB α) (i p : Nat) (b : Bool)
    (h : add_state_pos db i p = .ok (db1, b)) :
    (db.included_states = pair_count db → db1.included_states = pair_count db1) ∧
    (positions_nodup db → positions_nodup db1) := by
  rw [add_state_pos] at h
  split at h
  · cases h
  next plist hP =>
    try dsimp only at h
    split at h
    next e hstep => cases h
    next dbm hstep =>
      have hfacts : (db.included_states = pair_count db →
            dbm.included_states = pair_count dbm) ∧
          (positions_nodup db → positions_nodup dbm) := by
        split at hstep
        next hmem =>
          cases hstep
          exact ⟨fun hh => hh, fun hh => hh⟩
        next hmem =>
          split at hstep
          · cases hstep
          next oc hO =>
            cases hstep
            constructor
            · intro hh
              have hsum := sum_map_set_length db.state_positions i (plist ++ [p])
                plist hP
              rw [pair_count] at hh
              show db.included_states + 1 =
                ((db.state_positions.set i (plist ++ [p])).map List.length).sum
              simp only [List.length_append, List.length_singleton] at hsum
              omega
            · intro hh
              intro l hl
              rcases List.mem_or_eq_of_mem_set hl with hl | hl
              · exact hh l hl
              · subst hl
                have hplist : plist.Nodup := by
                  rcases List.getElem?_eq_some.mp hP with ⟨hlt, hval⟩
                  have hm2 := List.getElem_mem hlt
                  rw [hval] at hm2
                  exact hh plist hm2
                simp [List.nodup_append, hplist, hmem]
      try dsimp only at h
      split at h
      · cases h
      next slist hS =>
        try dsimp only at h
        by_cases hsb : i ∈ slist
        · rw [if_pos hsb] at h
          cases hfin : dbm.state_delimited[i]? with
          | none => rw [hfin] at h; cases h
          | some bb => rw [hfin] at h; cases h; exact hfacts
        · rw [if_neg hsb] at h
          try dsimp only at h
          cases hfin : dbm.state_delimited[i]? with
          | none => rw [hfin] at h; cases h
          | some bb => rw [hfin] at h; cases h; exact hfacts

theorem add_state_preserves (db db1 : MarkovDB α) (s : List α) (p : Nat)
    (b : Bool) (h : _add_state db s p = .ok (db1, b)) :
    (db.included_states = pair_count db → db1.included_states = pair_count db1) ∧
    (positions_nodup db → positions_nodup db1) := by
  rw [_add_state] at h
  split at h
  · cases h
  next src hsrc =>
    split at h
    · split at h
      next i hfind => exact add_state_pos_inv db db1 i p b h
      next hfind =>
        split at h
        · have h2 := add_state_pos_inv _ db1 db.state_index.length p b h
          constructor
          · intro hh
            refine h2.1 ?_
            show db.included_states =
              ((db.state_positions ++ [[]]).map List.length).sum
            rw [List.map_append, List.sum_append]
            simpa using hh
          · intro hh
            refine h2.2 ?_
            intro l hl
            rcases List.mem_append.mp hl with hl | hl
            · exact hh l hl
            · rw [List.mem_singleton.mp hl]
              exact List.nodup_nil
        · cases h
    · cases h

theorem add_state_noop (db : MarkovDB α) (src s : List α) (p i : Nat)
    (plist slist : List Nat) (b : Bool)
    (hsrc : db.source = some src) (hp : p < src.length)
    (hfind : index_of_state db.state_index s = some i)
    (hP : db.state_positions[i]? = some plist) (hmem : p ∈ plist)
    (hS : db.source_by_state[p]? = some slist) (hsb : i ∈ slist)
    (hD : db.state_delimited[i]? = some b) :
    _add_state db s p = .ok (db, b) := by
  rw [_add_state, hsrc]
  try dsimp only
  rw [if_pos hp, hfind]
  try dsimp only
  rw [add_state_pos, hP]
  try dsimp only
  rw [if_pos hmem]
  try dsimp only
  rw [hS]
  try dsimp only
  rw [if_pos hsb]
  try dsimp only
  rw [hD]

theorem get_next_state_fst (db : MarkovDB α) (s : List α) (g : Nat → Nat)
    (t : Nat) : (_get_next_state db s g t).1 = db := by
  unfold _get_next_state
  repeat' split
  all_goals try rfl
  all_goals try dsimp only
  all_goals repeat' split
  all_goals rfl

theorem chain_loop_fst (g : Nat → Nat) :
    ∀ fuel (db : MarkovDB α) c chain t, (chain_loop db c chain g t fuel).1 = db := by
  intro fuel
  induction fuel with
  | zero => intro db c chain t; rfl
  | succ n ih =>
    intro db c chain t
    rw [chain_loop]
    split
    case _ db1 e heq =>
      have h := get_next_state_fst db c g t
      rw [heq] at h
      exact h
    case _ db1 t1 heq =>
      have h := get_next_state_fst db c g t
      rw [heq] at h
      exact h
    case _ db1 ns idx t1 heq =>
      have h : db1 = db := by
        have h0 := get_next_state_fst db c g t
        rw [heq] at h0
        exact h0
      subst h
      split
      · rfl
      · split
        · rfl
        · exact ih _ _ _ _

theorem get_chain_fst (db : MarkovDB α) (n : Nat) (seed? : Option (List α))
    (w : Bool) (g : Nat → Nat) : (get_chain db n seed? w g).1 = db := by
  unfold get_chain
  split
  · rfl
  split
  · rfl
  split
  · rfl
  split
  · rfl
  case _ seed t heq =>
    split
    · rfl
    · exact chain_loop_fst g _ db seed [seed] t

theorem get_chain_as_string_fst (db : MarkovDB α) (n : Nat)
    (seed? : Option (List α)) (w : Bool) (g : Nat → Nat) :
    (get_chain_as_string db n seed? w g).1 = db := by
  unfold get_chain_as_string
  split
  case _ db1 e heq =>
    have h := get_chain_fst db n seed? w g
    rw [heq] at h
    exact h
  case _ db1 chain heq =>
    have h := get_chain_fst db n seed? w g
    rw [heq] at h
    exact h

theorem load_dict_keeps (db : MarkovDB α) (d : MarkovDict α) (fp : String) :
    (load_dict db d fp).state_positions = db.state_positions ∧
    (load_dict db d fp).min_state_length = db.min_state_length ∧
    (load_dict db d fp).max_state_length = db.max_state_length ∧
    (load_dict db d fp).delimiter = db.delimiter := by
  rw [load_dict]
  try dsimp only
  split <;> split <;> exact ⟨rfl, rfl, rfl, rfl⟩

/-! ## Claim theorems -/

/-- C1: refuted on the code (save/load round trip).  `save` writes the
`state_positions` field into the document, but `load` restores every other
state field and never reads that key: loading the saved built "a" model into
a fresh instance of the same name yields a model whose state index holds the
state "a" with occurrence count 1 while its positions table is still the
fresh instance's empty list — the positions do not round-trip and the pair
("a", 0), registered before saving, is no longer registered after loading.
The first conjunct shows the omission in general: `load_dict` leaves
`state_positions` untouched for every instance and every document. -/
theorem C1_round_trip_drops_positions :
    (∀ (db : MarkovDB Char) (d : MarkovDict Char) (fp : String),
      (load_dict db d fp).state_positions = db.state_positions) ∧
    generate freshA = .ok dbA ∧
    save dbA true = .ok dictA ∧ save dbA false = .ok dictA ∧
    dbA.state_positions = [[0]] ∧ dictA.state_positions = [[0]] ∧
    dbA_loaded.state_index = [['a']] ∧ dbA_loaded.state_occurances = [1] ∧
    dbA_loaded.state_positions = [] ∧ dbA_loaded.db_generated = true ∧
    dbA_loaded.source = some ['a'] ∧
    registered dbA ['a'] 0 ∧ ¬ registered dbA_loaded ['a'] 0 := by
  refine ⟨fun db d fp => (load_dict_keeps db d fp).1,
    rfl, rfl, rfl, rfl, rfl, rfl, rfl, rfl, rfl, rfl, ⟨0, [0], rfl, rfl, by decide⟩, ?_⟩
  rintro ⟨i, pl, hI, hP, hm⟩
  have hempty : dbA_loaded.state_positions = ([] : List (List Nat)) := rfl
  rw [hempty] at hP
  simp at hP

/-- C2 counterexample: on the model built from "a.b" with delimiter '.',
`get_chain 3` seeded at "a" draws the delimited state "." from
`_get_next_state` and then terminates, but the returned chain is just
["a"] — its last element is not the delimited state, so the delimiter is
chain-terminal exclusive, not inclusive as the claim states. -/
theorem C2_delimited_state_dropped_cex :
    generate freshADB = .ok dbADB ∧
    (_get_next_state dbADB ['a'] g0 0).2 = .ok (some (['.'], 1), 2) ∧
    dbADB.state_delimited[1]? = some true ∧
    get_chain dbADB 3 (some ['a']) false g0 = (dbADB, .ok [['a']]) ∧
    List.getLast? [['a']] ≠ some ['.'] :=
  ⟨rfl, rfl, rfl, rfl, by decide⟩

/-- C2 (amended): whenever the walk of `get_chain` draws a next state whose
cached delimiter flag is true, the loop stops immediately and returns the
chain accumulated so far, WITHOUT appending the delimited state: the
delimiter is chain-terminal exclusive. -/
theorem C2_delimiter_terminal_exclusive (db db1 : MarkovDB α) (c_state : List α)
    (chain : List (List α)) (g : Nat → Nat) (t fuel : Nat)
    (nstate : List α) (idx t1 : Nat)
    (hstep : _get_next_state db c_state g t = (db1, .ok (some (nstate, idx), t1)))
    (hdel : db1.state_delimited[idx]? = some true) :
    chain_loop db c_state chain g t (fuel + 1) = (db1, .ok chain) := by
  rw [chain_loop, hstep]
  try dsimp only
  rw [hdel]
  try dsimp only
  rw [if_pos rfl]

/-- Witness for C2: the amended theorem applied to the built "a.b" model at
the delimited draw found by the counterexample. -/
theorem C2_delimiter_terminal_exclusive_witness :
    _get_next_state dbADB ['a'] g0 0 = (dbADB, .ok (some (['.'], 1), 2)) ∧
    dbADB.state_delimited[1]? = some true ∧
    chain_loop dbADB ['a'] [['a']] g0 0 2 = (dbADB, .ok [['a']]) :=
  ⟨rfl, rfl, C2_delimiter_terminal_exclusive dbADB dbADB ['a'] [['a']] g0 0 1 ['.'] 1 2 rfl rfl⟩

/-- C3: refuted on the code (running past the source end raises).  On the
built "ab" model (min = max = 1), `get_chain 2` seeded at "b" advances to
offset 2 = len(source); the guard in `_get_next_state` uses a strict `>`
comparison, so the offset equal to the source length falls through to the
subscript `self._source_by_state[2]` and raises IndexError.  On the "abc"
model with min = max = 2, `get_chain 2` seeded at "ab" advances to the
in-range offset 2 which has no candidates; `_get_next_state` then executes
`return None`, and `get_chain` unpacks that bare None into the pair
`c_state, index`, raising TypeError.  Both terminal conditions that the
claim calls normal truncation are uncaught errors; only `num_states = 1`
(where the walk loop never runs) returns normally. -/
theorem C3_source_end_raises :
    generate freshAB = .ok dbAB ∧ ['b'] ∈ dbAB.state_index ∧
    get_chain dbAB 1 (some ['b']) false g0 = (dbAB, .ok [['b']]) ∧
    get_chain dbAB 2 (some ['b']) false g0 = (dbAB, .error .indexError) ∧
    dbAB.source_by_state.length = 2 ∧
    generate freshABC2 = .ok dbABC2 ∧ ['a', 'b'] ∈ dbABC2.state_index ∧
    get_chain dbABC2 2 (some ['a', 'b']) false g0 = (dbABC2, .error .typeError) ∧
    dbABC2.source_by_state[2]? = some [] :=
  ⟨rfl, by decide, rfl, rfl, rfl, rfl, by decide, rfl, rfl⟩

/-- C4: four of the five error cases match the claim, one does not.
`get_chain 0` raises ValueError (InvalidArgument); `get_chain` on a model
that was never given a source raises InvalidMarkovStateError — the
StateNotFound kind, not the claimed InvalidMarkovSourceError (InvalidSource)
that the method's own docstring promises; `get_chain` on an assigned but
unbuilt source raises MarkovDBNotGeneratedError; an unregistered seed raises
InvalidMarkovStateError; and `generate` with no source ever assigned raises
InvalidMarkovSourceError. -/
theorem C4_error_kinds :
    get_chain dbNS 0 none false g0 = (dbNS, .error .valueError) ∧
    dbNS.source = none ∧ dbNS.valid_source = false ∧
    get_chain dbNS 1 none false g0 = (dbNS, .error .invalidState) ∧
    MErr.invalidState ≠ MErr.invalidSource ∧
    freshAB.valid_source = true ∧ freshAB.db_generated = false ∧
    get_chain freshAB 1 (some ['a']) false g0 = (freshAB, .error .notGenerated) ∧
    generate freshAB = .ok dbAB ∧ (['z'] ∈ dbAB.state_index → False) ∧
    get_chain dbAB 1 (some ['z']) false g0 = (dbAB, .error .invalidState) ∧
    generate dbNS = .error .invalidSource :=
  ⟨rfl, rfl, rfl, rfl, by decide, rfl, rfl, rfl, rfl, by decide, rfl, rfl⟩

/-- C5: invariant I1 (`occurrence_count = |positions|` for every registered
state id) holds after `build()` and after a repeated `build()` on the same
source, but is broken by `load`: a fresh instance that loads the saved
built "a" model has one state in its index with occurrence count 1 while
the positions table was never restored, so `occ_matches` fails. -/
theorem C5_occurrence_positions_invariant :
    occ_matches dbA ∧ occ_matches (db_of (generate dbA) dbA) ∧
    occ_matches dbABAB ∧ dbA_loaded.state_index.length = 1 ∧
    ¬ occ_matches dbA_loaded := by
  refine ⟨by decide, by decide, by decide, rfl, by decide⟩

/-- C6 counterexample: on the model built from "abc" with
min = max = 2, offset 2 has zero candidate states, yet the weighted seed
draw of `get_chain` selects it (draw stream returning 2) and then fails
with IndexError from `choice` on the empty bucket — the draw does touch an
offset with zero candidates, contrary to the claim. -/
theorem C6_weighted_seed_empty_offset_cex :
    generate freshABC2 = .ok dbABC2 ∧
    dbABC2.source_by_state = [[0], [1], []] ∧
    dbABC2.source_by_state[2]? = some [] ∧
    get_chain dbABC2 1 none true g2 = (dbABC2, .error .indexError) :=
  ⟨rfl, rfl, rfl, rfl⟩

/-- C6 (amended): the weighted seed draw picks the offset uniformly among
ALL source offsets — the first draw selects bucket
`source_by_state[g t % len(source_by_state)]` whether or not it is empty.
If the selected bucket is empty the call fails with IndexError (no redraw);
otherwise the seed state id is drawn uniformly among the bucket's
candidates and looked up in the state index. -/
theorem C6_weighted_seed_all_offsets (db : MarkovDB α) (g : Nat → Nat) (t : Nat)
    (h : 0 < db.source_by_state.length) :
    (db.source_by_state.get ⟨g t % db.source_by_state.length, Nat.mod_lt _ h⟩
        = [] →
      weighted_seed_state db g t = .error .indexError) ∧
    (∀ h2 : 0 < (db.source_by_state.get
        ⟨g t % db.source_by_state.length, Nat.mod_lt _ h⟩).length,
      weighted_seed_state db g t =
        match db.state_index[(db.source_by_state.get
            ⟨g t % db.source_by_state.length, Nat.mod_lt _ h⟩).get
            ⟨g (t + 1) % (db.source_by_state.get
              ⟨g t % db.source_by_state.length, Nat.mod_lt _ h⟩).length,
              Nat.mod_lt _ h2⟩]? with
          | some s => .ok (s, t + 2)
          | none => .error .indexError) := by
  constructor
  · intro hemp
    rw [weighted_seed_state, rchoice, dif_pos h]
    try dsimp only
    rw [hemp, rchoice, dif_neg (by simp)]
  · intro h2
    rw [weighted_seed_state, rchoice, dif_pos h]
    try dsimp only
    rw [rchoice, dif_pos h2]
    try dsimp only
    cases hfin : db.state_index[(db.source_by_state.get
        ⟨g t % db.source_by_state.length, Nat.mod_lt _ h⟩).get
        ⟨g (t + 1) % (db.source_by_state.get
          ⟨g t % db.source_by_state.length, Nat.mod_lt _ h⟩).length,
          Nat.mod_lt _ h2⟩]? with
    | none => rfl
    | some s => rfl

/-- Witness for C6: the amended theorem applied to the "abc" (min=max=2)
model with the draw stream that selects the empty offset 2. -/
theorem C6_weighted_seed_all_offsets_witness :
    (0 < dbABC2.source_by_state.length) ∧
    weighted_seed_state dbABC2 g2 0 = .error .indexError :=
  ⟨by decide, (C6_weighted_seed_all_offsets dbABC2 g2 0 (by decide)).1 rfl⟩

/-- C7: `generate` on a freshly constructed model with an assigned source
registers exactly the pairs described by the claim: for each start offset
`ii` in `[0, len source)`, the states `source[ii : ii+jj]` for consecutive
lengths `jj` from `min_state_length` upward, stopping at this offset exactly
when `ii + jj` exceeds the source length (so a state may extend to the last
symbol) or, inclusively, right after a delimited state is registered — only
the inner length loop breaks, every offset is processed.  `claimRegs` is
the claim-side description of that stopping rule. -/
theorem C7_build_registration (name : String) (src : List α) (minL maxL : Nat)
    (d : Option α) (hmin : 1 ≤ minL) (hmax : 1 ≤ maxL) :
    ∃ db', generate (freshDB name (some src) minL maxL d) = .ok db' ∧
      ∀ s p, registered db' s p ↔ (s, p) ∈ claimRegs src d minL maxL := by
  obtain ⟨db', h1, _, h3⟩ := generate_spec name src minL maxL d
  exact ⟨db', h1, h3⟩

/-- Witness for C7: the theorem applied to the source "AB" with
min = 1, max = 2 and delimiter 'B'. -/
theorem C7_build_registration_witness :
    (1 ≤ 1) ∧ (1 ≤ 2) ∧
    ∃ db', generate (freshDB "m" (some ['A', 'B']) 1 2 (some 'B')) = .ok db' ∧
      ∀ s p, registered db' s p ↔ (s, p) ∈ claimRegs ['A', 'B'] (some 'B') 1 2 :=
  ⟨Nat.le_refl 1, by decide,
    C7_build_registration "m" ['A', 'B'] 1 2 (some 'B') (by decide) (by decide)⟩

/-- C8: registering a pair that is already recorded (state found at index
`i`, offset already in its positions, id already in the offset's bucket) is
a no-op returning the cached flag; every successful registration preserves
both `included_states = pair_count` (the running counter equals the number
of distinct recorded (state, offset) pairs, I3) and the duplicate-freeness
of every positions list (I2); and concretely, building "ABAB" with
min = max = 1 and no delimiter yields exactly 4 registrations — two states
at two offsets each — also after a repeated `generate` on the same model. -/
theorem C8_registration_invariants {α : Type} [DecidableEq α] :
    (∀ (db : MarkovDB α) (src s : List α) (p i : Nat)
        (plist slist : List Nat) (b : Bool),
        db.source = some src → p < src.length →
        index_of_state db.state_index s = some i →
        db.state_positions[i]? = some plist → p ∈ plist →
        db.source_by_state[p]? = some slist → i ∈ slist →
        db.state_delimited[i]? = some b →
        _add_state db s p = .ok (db, b)) ∧
    (∀ (db db1 : MarkovDB α) (s : List α) (p : Nat) (b : Bool),
        _add_state db s p = .ok (db1, b) →
        (db.included_states = pair_count db →
          db1.included_states = pair_count db1) ∧
        (positions_nodup db → positions_nodup db1)) ∧
    (generate freshABAB = .ok dbABAB ∧
      dbABAB.included_states = 4 ∧ pair_count dbABAB = 4 ∧
      dbABAB.state_index = [['A'], ['B']] ∧
      dbABAB.state_positions = [[0, 2], [1, 3]] ∧
      positions_nodup dbABAB ∧
      generate dbABAB = .ok (db_of (generate dbABAB) dbABAB) ∧
      (db_of (generate dbABAB) dbABAB).included_states = 4 ∧
      (db_of (generate dbABAB) dbABAB).state_index = [['A'], ['B']] ∧
      (db_of (generate dbABAB) dbABAB).state_positions = [[0, 2], [1, 3]]) := by
  refine ⟨?_, ?_, rfl, rfl, rfl, rfl, rfl, ?_, rfl, rfl, rfl, rfl⟩
  · intro db src s p i plist slist b hsrc hp hfind hP hmem hS hsb hD
    exact add_state_noop db src s p i plist slist b hsrc hp hfind hP hmem hS hsb hD
  · intro db db1 s p b h
    exact add_state_preserves db db1 s p b h
  · intro l hl
    simp only [dbABAB, freshABAB] at hl
    fin_cases hl <;> decide

/-- Witness for C8: the no-op and preservation parts applied to the built
"ABAB" model at the already-registered pair ("A", 0). -/
theorem C8_registration_invariants_witness :
    _add_state dbABAB ['A'] 0 = .ok (dbABAB, false) ∧
    ((dbABAB.included_states = pair_count dbABAB →
      dbABAB.included_states = pair_count dbABAB) ∧
     (positions_nodup dbABAB → positions_nodup dbABAB)) :=
  ⟨(C8_registration_invariants (α := Char)).1 dbABAB ['A', 'B', 'A', 'B'] ['A'] 0 0 [0, 2] [0] false
      rfl (by decide) rfl rfl (by decide) rfl (by decide) rfl,
   (C8_registration_invariants (α := Char)).2.1 dbABAB dbABAB ['A'] 0 false
      ((C8_registration_invariants (α := Char)).1 dbABAB ['A', 'B', 'A', 'B'] ['A'] 0 0 [0, 2] [0]
        false rfl (by decide) rfl rfl (by decide) rfl (by decide) rfl)⟩

/-- C9: refuted on the code for the never-saved instance.  With `file_path`
omitted, `load` first evaluates `os.path.exists(self._saved_loc)`; on an
instance that has never been saved `_saved_loc` is None and the call raises
TypeError instead of computing the default-directory candidates.  The
remaining conjuncts confirm the rest of the resolution: a remembered prior
path that still exists is used; otherwise the default-directory candidates
for both extensions are compared — when both exist the newer modification
time wins (the uncompressed file on a tie, via `>=`), and when only one
exists it is picked. -/
theorem C9_load_path_resolution :
    dbNS.saved_loc = none ∧
    resolve_load_path ⟨fun _ => false, fun _ => 0⟩ "d" dbNS none
      = .error .typeError ∧
    resolve_load_path ⟨fun _ => true, fun _ => 0⟩ "d"
      { dbNS with saved_loc := some "q" } none = .ok "q" ∧
    resolve_load_path ⟨fun p => p ≠ "q", fun p => if p = "d/x.mjson" then 5 else 3⟩
      "d" { dbNS with saved_loc := some "q" } none = .ok "d/x.mjson" ∧
    resolve_load_path ⟨fun p => p ≠ "q", fun p => if p = "d/x.mjson" then 5 else 7⟩
      "d" { dbNS with saved_loc := some "q" } none = .ok "d/x.mjson.gz" ∧
    resolve_load_path ⟨fun p => p = "d/x.mjson", fun _ => 0⟩
      "d" { dbNS with saved_loc := some "q" } none = .ok "d/x.mjson" ∧
    resolve_load_path ⟨fun p => p = "d/x.mjson.gz", fun _ => 0⟩
      "d" { dbNS with saved_loc := some "q" } none = .ok "d/x.mjson.gz" :=
  ⟨rfl, rfl, rfl, rfl, rfl, rfl, rfl⟩

/-- C10: `get_chain` and `get_chain_as_string` never mutate the model: the
threaded database returned by either call (whether the result is a chain or
an error) is the input database itself, hence Source, state index,
positions, occurrence counts, delimiter flags, position index, registration
counter and generated flag are all unchanged. -/
theorem C10_chain_is_readonly :
    ∀ (db : MarkovDB Char) (n : Nat) (seed? : Option (List Char)) (w : Bool)
      (g : Nat → Nat),
      (get_chain db n seed? w g).1 = db ∧
      (get_chain_as_string db n seed? w g).1 = db := by
  intro db n s w g
  constructor
  · exact get_chain_fst db n s w g
  · exact get_chain_as_string_fst db n s w g
